import Mathlib

/-!
Verification of the address-set reference codec of ovn-kubernetes
(`go-controller/pkg/ovn/address_set.go`): `newAddressSetRef` (the encoder),
`parseAddressSetRef` (the decoder), and the derived display/hashed names.

Strings are embedded as lists of characters (`Str`).  The separator used by
the codec is the single ASCII character `'.'`, so Go's `strings.Split(s, ".")`
and `strings.Join(parts, ".")` coincide with character-level splitting and
joining on `'.'`; `splitOnDot` and `joinDot` below model them.  Go's `nil`
return of `parseAddressSetRef` is modelled as `Option.none`; a variadic
`args ...string` parameter is modelled as a `List Str` (the empty list
standing for Go's nil slice of a zero-argument call).
-/

/-- A Go string, embedded as its list of characters. -/
abbrev Str : Type := List Char

/-- A string component is dot-free when it does not contain the `'.'`
separator; the codec performs no escaping, so round-trip statements are about
dot-free components. -/
def dotFree (s : Str) : Prop := '.' ∉ s

instance (s : Str) : Decidable (dotFree s) := by
  unfold dotFree; infer_instance

/-- Go `strings.Split(s, ".")`: the maximal split of `s` at every occurrence
of `'.'`.  On the empty string it returns the one-element list `[""]`, exactly
as in Go. -/
def splitOnDot : Str → List Str
  | [] => [[]]
  | c :: rest =>
    match splitOnDot rest with
    | [] => [[]]
    | p :: ps => if c = '.' then [] :: p :: ps else (c :: p) :: ps

/-- Go `strings.Join(parts, ".")`. -/
def joinDot : List Str → Str
  | [] => []
  | [p] => p
  | p :: q :: rest => p ++ '.' :: joinDot (q :: rest)

/-- The `AddressSetRef` struct of `address_set.go`: the components of the
reference together with the derived `DisplayName` and `HashedName`. -/
structure AddressSetRef where
  OwnerType : Str
  OwnerNamespace : Str
  OwnerName : Str
  IPv6 : Bool
  Args : List Str
  DisplayName : Str
  HashedName : Str
deriving DecidableEq, Repr

/-- Decimal digit character for `n % 10`. -/
def digitChar (n : Nat) : Char := Char.ofNat (48 + n % 10)

/-- Decimal rendering of a natural number, with explicit fuel (the first
argument) bounding the number of digits. -/
def decimalRep : Nat → Nat → Str
  | 0, _ => []
  | fuel + 1, n => if n < 10 then [digitChar n] else decimalRep fuel (n / 10) ++ [digitChar (n % 10)]

/-- A 64-bit polynomial rolling hash of a string. -/
def polyHash (s : Str) : Nat :=
  s.foldl (fun h c => (h * 31 + c.toNat) % 18446744073709551616) 5381

/-- Modelled from the spec: the digest function `hashForOVN` is not among the
provided source files (only its call sites are); the spec describes it as a
pluggable, stable, deterministic pure function from strings to strings whose
output obeys OVN's name grammar.  It is modelled here as a 64-bit rolling
hash rendered in decimal with a letter prepended. -/
def hashForOVN (s : Str) : Str :=
  'a' :: decimalRep 32 (polyHash s)

/-- The `nameParts` computation of `newAddressSetRef`: the three-way format
dispatch that chooses between the bare-namespace legacy form, the
network-policy compact form, and the general tagged form. -/
def addressSetNameParts (ownerType : Str) (ipv6 : Bool) (ownerNamespace ownerName : Str)
    (args : List Str) : List Str :=
  if ownerType = "Namespace".data ∧ ipv6 = false ∧ ownerName = [] ∧ args = [] then
    [ownerNamespace]
  else if ownerType = "NetworkPolicy".data ∧ ipv6 = false then
    ownerNamespace :: ownerName :: args
  else
    [] :: ownerType :: (if ipv6 then 'v' :: '6' :: [] else 'v' :: '4' :: []) ::
      ownerNamespace :: ownerName :: args

/-- `newAddressSetRef` of `address_set.go`: builds an `AddressSetRef` from the
arguments, with `DisplayName` the dot-join of `addressSetNameParts` and
`HashedName` its digest.  It always returns a reference (the Go function
never returns nil). -/
def newAddressSetRef (ownerType : Str) (ipv6 : Bool) (ownerNamespace ownerName : Str)
    (args : List Str) : AddressSetRef :=
  { OwnerType := ownerType
    OwnerNamespace := ownerNamespace
    OwnerName := ownerName
    IPv6 := ipv6
    Args := args
    DisplayName := joinDot (addressSetNameParts ownerType ipv6 ownerNamespace ownerName args)
    HashedName := hashForOVN (joinDot (addressSetNameParts ownerType ipv6 ownerNamespace ownerName args)) }

/-- `parseAddressSetRef` of `address_set.go`: splits the display name on `'.'`
and classifies it as the general tagged form, the network-policy compact form,
or the bare-namespace legacy form, returning `none` (Go nil) when none of the
three branches matches. -/
def parseAddressSetRef (displayName : Str) : Option AddressSetRef :=
  if 5 < (splitOnDot displayName).length ∧ (splitOnDot displayName).getD 0 [] = [] then
    some { OwnerType := (splitOnDot displayName).getD 1 []
           OwnerNamespace := (splitOnDot displayName).getD 3 []
           OwnerName := (splitOnDot displayName).getD 4 []
           IPv6 := decide ((splitOnDot displayName).getD 2 [] = 'v' :: '6' :: [])
           Args := (splitOnDot displayName).drop 5
           DisplayName := displayName
           HashedName := hashForOVN displayName }
  else if 1 < (splitOnDot displayName).length ∧ (splitOnDot displayName).getD 0 [] ≠ [] then
    some { OwnerType := "NetworkPolicy".data
           OwnerNamespace := (splitOnDot displayName).getD 0 []
           OwnerName := (splitOnDot displayName).getD 1 []
           IPv6 := false
           Args := (splitOnDot displayName).drop 2
           DisplayName := displayName
           HashedName := hashForOVN displayName }
  else if (splitOnDot displayName).length = 1 ∧ (splitOnDot displayName).getD 0 [] ≠ [] then
    some { OwnerType := "Namespace".data
           OwnerNamespace := (splitOnDot displayName).getD 0 []
           OwnerName := []
           IPv6 := false
           Args := []
           DisplayName := displayName
           HashedName := hashForOVN displayName }
  else
    none

example : splitOnDot "a.b".data = ["a".data, "b".data] := by decide
example : splitOnDot [] = [[]] := by decide
example : joinDot ["a".data, [], "b".data] = "a..b".data := by decide
example : (newAddressSetRef "Namespace".data false "testing".data [] []).DisplayName
    = "testing".data := by decide
example : (newAddressSetRef "Namespace".data false "testing".data "also-testing".data []).DisplayName
    = ".Namespace.v4.testing.also-testing".data := by decide
example : (newAddressSetRef "Namespace".data false "testing".data [] ["blah".data, "blah".data]).DisplayName
    = ".Namespace.v4.testing..blah.blah".data := by decide
example : (newAddressSetRef "Namespace".data true "testing".data [] []).DisplayName
    = ".Namespace.v6.testing.".data := by decide
example : (newAddressSetRef "NetworkPolicy".data false "testing".data "policy".data
    ["ingress".data, "1".data]).DisplayName = "testing.policy.ingress.1".data := by decide
example : (newAddressSetRef "NetworkPolicy".data true "testing".data "policy".data
    ["ingress".data, "1".data]).DisplayName = ".NetworkPolicy.v6.testing.policy.ingress.1".data := by decide
example : parseAddressSetRef [] = none := by decide
example : parseAddressSetRef ".a".data = none := by decide

/-! ### Splitting and joining -/

theorem splitOnDot_ne_nil (s : Str) : splitOnDot s ≠ [] := by
  induction s with
  | nil => simp [splitOnDot]
  | cons c rest ih =>
    simp only [splitOnDot]
    cases h : splitOnDot rest with
    | nil => simp
    | cons p ps =>
      by_cases hc : c = '.' <;> simp [hc]

theorem splitOnDot_of_dotFree (p : Str) (h : dotFree p) : splitOnDot p = [p] := by
  induction p with
  | nil => rfl
  | cons c rest ih =>
    simp only [dotFree, List.mem_cons, not_or] at h
    have hc : ¬(c = '.') := fun he => h.1 he.symm
    have hr : splitOnDot rest = [rest] := ih h.2
    simp [splitOnDot, hr, hc]

theorem splitOnDot_append_dot (p t : Str) (h : dotFree p) :
    splitOnDot (p ++ '.' :: t) = p :: splitOnDot t := by
  induction p with
  | nil =>
    simp only [List.nil_append, splitOnDot]
    cases ht : splitOnDot t with
    | nil => exact absurd ht (splitOnDot_ne_nil t)
    | cons q qs => simp
  | cons c rest ih =>
    simp only [dotFree, List.mem_cons, not_or] at h
    have hc : ¬(c = '.') := fun he => h.1 he.symm
    have hr := ih h.2
    simp only [List.cons_append, splitOnDot, List.append_eq, hr, hc, if_false]

theorem splitOnDot_joinDot (parts : List Str) (hne : parts ≠ [])
    (h : ∀ p ∈ parts, dotFree p) : splitOnDot (joinDot parts) = parts := by
  induction parts with
  | nil => exact absurd rfl hne
  | cons p ps ih =>
    cases ps with
    | nil =>
      simp only [joinDot]
      exact splitOnDot_of_dotFree p (h p (by simp))
    | cons q rest =>
      simp only [joinDot]
      rw [splitOnDot_append_dot p (joinDot (q :: rest)) (h p (by simp))]
      rw [ih (by simp) (fun x hx => h x (List.mem_cons_of_mem p hx))]

/-! ### The three branches of the decoder -/

theorem parse_general (s : Str) (h5 : 5 < (splitOnDot s).length)
    (h0 : (splitOnDot s).getD 0 [] = []) :
    parseAddressSetRef s = some
      { OwnerType := (splitOnDot s).getD 1 []
        OwnerNamespace := (splitOnDot s).getD 3 []
        OwnerName := (splitOnDot s).getD 4 []
        IPv6 := decide ((splitOnDot s).getD 2 [] = 'v' :: '6' :: [])
        Args := (splitOnDot s).drop 5
        DisplayName := s
        HashedName := hashForOVN s } := by
  unfold parseAddressSetRef
  rw [if_pos ⟨h5, h0⟩]

theorem parse_compact (s : Str) (h1 : 1 < (splitOnDot s).length)
    (h0 : (splitOnDot s).getD 0 [] ≠ []) :
    parseAddressSetRef s = some
      { OwnerType := "NetworkPolicy".data
        OwnerNamespace := (splitOnDot s).getD 0 []
        OwnerName := (splitOnDot s).getD 1 []
        IPv6 := false
        Args := (splitOnDot s).drop 2
        DisplayName := s
        HashedName := hashForOVN s } := by
  unfold parseAddressSetRef
  rw [if_neg (fun hc => h0 hc.2), if_pos ⟨h1, h0⟩]

theorem parse_bare (s : Str) (h1 : (splitOnDot s).length = 1)
    (h0 : (splitOnDot s).getD 0 [] ≠ []) :
    parseAddressSetRef s = some
      { OwnerType := "Namespace".data
        OwnerNamespace := (splitOnDot s).getD 0 []
        OwnerName := []
        IPv6 := false
        Args := []
        DisplayName := s
        HashedName := hashForOVN s } := by
  unfold parseAddressSetRef
  rw [if_neg (fun hc => by rw [h1] at hc; exact absurd hc.1 (by norm_num)),
    if_neg (fun hc => by rw [h1] at hc; exact absurd hc.1 (by norm_num)),
    if_pos ⟨h1, h0⟩]

theorem parse_some_fields (s : Str) (r : AddressSetRef)
    (h : parseAddressSetRef s = some r) :
    r.HashedName = hashForOVN s ∧ r.DisplayName = s := by
  unfold parseAddressSetRef at h
  split_ifs at h <;> (simp only [Option.some.injEq] at h; subst h; exact ⟨rfl, rfl⟩)

theorem parse_joinDot_general (ot fam ns nm : Str) (args : List Str)
    (hot : dotFree ot) (hfam : dotFree fam) (hns : dotFree ns) (hnm : dotFree nm)
    (hargs : ∀ a ∈ args, dotFree a) (hargsne : args ≠ []) :
    ∃ r, parseAddressSetRef (joinDot ([] :: ot :: fam :: ns :: nm :: args)) = some r
      ∧ r.OwnerType = ot ∧ r.IPv6 = decide (fam = 'v' :: '6' :: [])
      ∧ r.OwnerNamespace = ns ∧ r.OwnerName = nm ∧ r.Args = args := by
  have hsplit : splitOnDot (joinDot ([] :: ot :: fam :: ns :: nm :: args))
      = [] :: ot :: fam :: ns :: nm :: args := by
    refine splitOnDot_joinDot _ (by simp) ?_
    intro p hp
    simp only [List.mem_cons] at hp
    rcases hp with h | h | h | h | h | h
    · subst h; simp [dotFree]
    · subst h; exact hot
    · subst h; exact hfam
    · subst h; exact hns
    · subst h; exact hnm
    · exact hargs p h
  have hlen : 5 < (splitOnDot (joinDot ([] :: ot :: fam :: ns :: nm :: args))).length := by
    rw [hsplit]
    have := List.length_pos.mpr hargsne
    simp only [List.length_cons]
    omega
  have h0 : (splitOnDot (joinDot ([] :: ot :: fam :: ns :: nm :: args))).getD 0 [] = [] := by
    rw [hsplit]; rfl
  refine ⟨_, parse_general _ hlen h0, ?_, ?_, ?_, ?_, ?_⟩ <;> simp [hsplit]

/-! ### Claims -/

/-- C2: the encoder evaluates exactly three rules in priority order: (1) if
`ownerType = "Namespace"`, `ipv6 = false`, `ownerName` empty and `args` nil,
the display name is `ownerNamespace`; (2) else if
`ownerType = "NetworkPolicy"` and `ipv6 = false`, it is `ownerNamespace`,
`ownerName` and the args joined with `'.'`; (3) otherwise it is the empty
string, `ownerType`, `"v6"`/`"v4"`, `ownerNamespace`, `ownerName` and the
args joined with `'.'`, producing a leading `'.'`. -/
theorem newAddressSetRef_three_forms (ot : Str) (v6 : Bool) (ns nm : Str) (args : List Str) :
    ((ot = "Namespace".data ∧ v6 = false ∧ nm = [] ∧ args = []) →
      (newAddressSetRef ot v6 ns nm args).DisplayName = ns)
    ∧ (¬(ot = "Namespace".data ∧ v6 = false ∧ nm = [] ∧ args = []) →
        (ot = "NetworkPolicy".data ∧ v6 = false) →
        (newAddressSetRef ot v6 ns nm args).DisplayName = joinDot (ns :: nm :: args))
    ∧ (¬(ot = "Namespace".data ∧ v6 = false ∧ nm = [] ∧ args = []) →
        ¬(ot = "NetworkPolicy".data ∧ v6 = false) →
        (newAddressSetRef ot v6 ns nm args).DisplayName =
          '.' :: joinDot (ot :: (if v6 then 'v' :: '6' :: [] else 'v' :: '4' :: []) ::
            ns :: nm :: args)) := by
  refine ⟨fun h => ?_, fun h1 h2 => ?_, fun h1 h2 => ?_⟩
  · show joinDot (addressSetNameParts ot v6 ns nm args) = ns
    unfold addressSetNameParts
    rw [if_pos h]
    rfl
  · show joinDot (addressSetNameParts ot v6 ns nm args) = _
    unfold addressSetNameParts
    rw [if_neg h1, if_pos h2]
  · show joinDot (addressSetNameParts ot v6 ns nm args) = _
    unfold addressSetNameParts
    rw [if_neg h1, if_neg h2]
    rfl

/-- Witness for C2: each of the three encoder rules applied at a concrete
input. -/
theorem newAddressSetRef_three_forms_witness :
    (newAddressSetRef "Namespace".data false "testing".data [] []).DisplayName = "testing".data
    ∧ (newAddressSetRef "NetworkPolicy".data false "a".data "b".data ["c".data]).DisplayName
        = joinDot ("a".data :: "b".data :: ["c".data])
    ∧ (newAddressSetRef "Pod".data true "a".data "b".data []).DisplayName
        = '.' :: joinDot ("Pod".data :: (if true then 'v' :: '6' :: [] else 'v' :: '4' :: []) ::
            "a".data :: "b".data :: []) :=
  ⟨(newAddressSetRef_three_forms _ _ _ _ _).1 (by decide),
   (newAddressSetRef_three_forms _ _ _ _ _).2.1 (by decide) (by decide),
   (newAddressSetRef_three_forms _ _ _ _ _).2.2 (by decide) (by decide)⟩

/-- C3: the decoder splits the display name on `'.'` and classifies in order:
more than 5 parts with an empty first part gives the general tagged form;
else more than 1 part with a non-empty first part gives the network-policy
compact form; else exactly 1 non-empty part gives the bare-namespace form. -/
theorem parseAddressSetRef_classification (s : Str) :
    (5 < (splitOnDot s).length ∧ (splitOnDot s).getD 0 [] = [] →
      parseAddressSetRef s = some
        { OwnerType := (splitOnDot s).getD 1 []
          OwnerNamespace := (splitOnDot s).getD 3 []
          OwnerName := (splitOnDot s).getD 4 []
          IPv6 := decide ((splitOnDot s).getD 2 [] = 'v' :: '6' :: [])
          Args := (splitOnDot s).drop 5
          DisplayName := s
          HashedName := hashForOVN s })
    ∧ (1 < (splitOnDot s).length ∧ (splitOnDot s).getD 0 [] ≠ [] →
        parseAddressSetRef s = some
          { OwnerType := "NetworkPolicy".data
            OwnerNamespace := (splitOnDot s).getD 0 []
            OwnerName := (splitOnDot s).getD 1 []
            IPv6 := false
            Args := (splitOnDot s).drop 2
            DisplayName := s
            HashedName := hashForOVN s })
    ∧ ((splitOnDot s).length = 1 ∧ (splitOnDot s).getD 0 [] ≠ [] →
        parseAddressSetRef s = some
          { OwnerType := "Namespace".data
            OwnerNamespace := (splitOnDot s).getD 0 []
            OwnerName := []
            IPv6 := false
            Args := []
            DisplayName := s
            HashedName := hashForOVN s }) :=
  ⟨fun h => parse_general s h.1 h.2, fun h => parse_compact s h.1 h.2,
   fun h => parse_bare s h.1 h.2⟩

/-- Witness for C3: the three decoder branches taken at concrete inputs. -/
theorem parseAddressSetRef_classification_witness :
    (parseAddressSetRef ".T.v6.a.b.c".data).isSome = true
    ∧ (parseAddressSetRef "a.b".data).isSome = true
    ∧ (parseAddressSetRef "a".data).isSome = true := by
  refine ⟨?_, ?_, ?_⟩
  · rw [(parseAddressSetRef_classification ".T.v6.a.b.c".data).1 (by decide)]; rfl
  · rw [(parseAddressSetRef_classification "a.b".data).2.1 (by decide)]; rfl
  · rw [(parseAddressSetRef_classification "a".data).2.2 (by decide)]; rfl

/-- Counterexample for C4: the claim says the decoder yields the unparseable
result only on the empty string or a single empty part, but `".a"` is neither
and is still unparseable (2 parts, first empty, not more than 5). -/
theorem parse_none_counterexample :
    parseAddressSetRef ('.' :: 'a' :: []) = none
    ∧ ('.' :: 'a' :: []) ≠ ([] : Str)
    ∧ splitOnDot ('.' :: 'a' :: []) ≠ [([] : Str)] := by decide

/-- C4 (amended): the decoder returns the unparseable result (nil) exactly
when the split of the display name on `'.'` has an empty first part and at
most 5 parts; in particular the empty string is unparseable, and every
string whose first part is non-empty, or that has more than 5 parts with an
empty first part, decodes to one of the three forms. -/
theorem parseAddressSetRef_none_iff (s : Str) :
    parseAddressSetRef s = none ↔
      ((splitOnDot s).getD 0 [] = [] ∧ (splitOnDot s).length ≤ 5) := by
  have hlen : 1 ≤ (splitOnDot s).length := by
    cases h : splitOnDot s with
    | nil => exact absurd h (splitOnDot_ne_nil s)
    | cons a l => simp
  unfold parseAddressSetRef
  split_ifs with h1 h2 h3
  · simp only [false_iff]
    · intro hr
      exact absurd h1.1 (by omega)
  · simp only [false_iff]
    · intro hr
      exact h2.2 hr.1
  · simp only [false_iff]
    · intro hr
      exact h3.2 hr.1
  · simp only [true_iff]
    by_cases hd : (splitOnDot s).getD 0 [] = []
    · refine ⟨hd, ?_⟩
      by_contra hgt
      exact h1 ⟨by omega, hd⟩
    · have hle1 : (splitOnDot s).length ≤ 1 := by
        by_contra hgt
        exact h2 ⟨by omega, hd⟩
      exact absurd ⟨by omega, hd⟩ h3

/-- Counterexample for C5: on the empty string the decoder returns nil, which
exposes no hashed name at all; the result does not carry
`hashForOVN ""` to the caller. -/
theorem parse_hashedName_counterexample :
    Option.map (fun r => r.HashedName) (parseAddressSetRef ([] : Str))
      ≠ some (hashForOVN ([] : Str)) := by decide

/-- C5 (amended): whenever the decoder returns a parsed (non-nil) reference,
that reference's hashed name is the digest of the input display name, and the
display name is stored verbatim; on the unparseable outcome the decoder
returns nil, which exposes no hashed name (the digest computed internally is
discarded). -/
theorem parse_hashedName_of_some (s : Str) (r : AddressSetRef)
    (h : parseAddressSetRef s = some r) :
    r.HashedName = hashForOVN s ∧ r.DisplayName = s :=
  parse_some_fields s r h

/-- Witness for C5 (amended): a successfully parsed input exposes the digest
of its display name. -/
theorem parse_hashedName_of_some_witness :
    ∃ r, parseAddressSetRef ('a' :: []) = some r
      ∧ r.HashedName = hashForOVN ('a' :: []) ∧ r.DisplayName = 'a' :: [] := by
  obtain ⟨r, hr⟩ : ∃ r, parseAddressSetRef ('a' :: []) = some r := ⟨_, rfl⟩
  exact ⟨r, hr, parse_hashedName_of_some ('a' :: []) r hr⟩

/-- C6: the encoder is total: on every tuple of component strings, including
empty ones, it returns a reference carrying the components together with a
display name and its hashed name; its return type has no degenerate
unparseable value (only the decoder, whose result is an `Option`, can yield
`none`). -/
theorem newAddressSetRef_total (ot : Str) (v6 : Bool) (ns nm : Str) (args : List Str) :
    (newAddressSetRef ot v6 ns nm args).OwnerType = ot
    ∧ (newAddressSetRef ot v6 ns nm args).OwnerNamespace = ns
    ∧ (newAddressSetRef ot v6 ns nm args).OwnerName = nm
    ∧ (newAddressSetRef ot v6 ns nm args).IPv6 = v6
    ∧ (newAddressSetRef ot v6 ns nm args).Args = args
    ∧ (newAddressSetRef ot v6 ns nm args).HashedName
        = hashForOVN (newAddressSetRef ot v6 ns nm args).DisplayName :=
  ⟨rfl, rfl, rfl, rfl, rfl, rfl⟩

/-- C7: the hashed name is a pure function of the display name alone: the
encoder sets it to the digest of the display name it builds, the decoder sets
it to the digest of its input for every successfully parsed reference, and
when both paths see the same display name they compute the same hashed
name. -/
theorem hashedName_pure (ot : Str) (v6 : Bool) (ns nm : Str) (args : List Str) (s : Str) :
    (newAddressSetRef ot v6 ns nm args).HashedName
        = hashForOVN (newAddressSetRef ot v6 ns nm args).DisplayName
    ∧ (∀ r, parseAddressSetRef s = some r → r.HashedName = hashForOVN r.DisplayName)
    ∧ (∀ r, parseAddressSetRef s = some r →
        (newAddressSetRef ot v6 ns nm args).DisplayName = s →
        (newAddressSetRef ot v6 ns nm args).HashedName = r.HashedName) := by
  refine ⟨rfl, fun r hr => ?_, fun r hr hds => ?_⟩
  · obtain ⟨hh, hd⟩ := parse_some_fields s r hr
    rw [hh, hd]
  · obtain ⟨hh, _⟩ := parse_some_fields s r hr
    show hashForOVN (newAddressSetRef ot v6 ns nm args).DisplayName = r.HashedName
    rw [hds, hh]

/-- Witness for C7: the encode path and the decode path agree on the hashed
name of the display name `"testing"`. -/
theorem hashedName_pure_witness :
    ∃ r, parseAddressSetRef "testing".data = some r
      ∧ r.HashedName = hashForOVN r.DisplayName
      ∧ (newAddressSetRef "Namespace".data false "testing".data [] []).HashedName
          = r.HashedName := by
  obtain ⟨r, hr⟩ : ∃ r, parseAddressSetRef "testing".data = some r := ⟨_, rfl⟩
  have h := hashedName_pure "Namespace".data false "testing".data [] [] "testing".data
  exact ⟨r, hr, h.2.1 r hr, h.2.2 r hr (by decide)⟩

/-- C8: the encoder is not injective even on dot-free components: a
network-policy IPv4 reference with empty owner namespace whose owner name and
args spell `"Namespace"`, `"v4"`, ... produces the same display name as a
general tagged reference. -/
theorem encode_not_injective :
    ∃ ot₁ v₁ ns₁ nm₁ as₁ ot₂ v₂ ns₂ nm₂ as₂,
      (dotFree ot₁ ∧ dotFree ns₁ ∧ dotFree nm₁ ∧ ∀ a ∈ as₁, dotFree a)
      ∧ (dotFree ot₂ ∧ dotFree ns₂ ∧ dotFree nm₂ ∧ ∀ a ∈ as₂, dotFree a)
      ∧ (ot₁, v₁, ns₁, nm₁, as₁) ≠ (ot₂, v₂, ns₂, nm₂, as₂)
      ∧ (newAddressSetRef ot₁ v₁ ns₁ nm₁ as₁).DisplayName
          = (newAddressSetRef ot₂ v₂ ns₂ nm₂ as₂).DisplayName :=
  ⟨"NetworkPolicy".data, false, [], "Namespace".data,
    ["v4".data, "x".data, "y".data, "z".data],
   "Namespace".data, false, "x".data, "y".data, ["z".data], by decide⟩

/-- C9: the decoder validates nothing at the family-tag position: for every
display name classified as the general tagged form it returns a parsed
reference whose `IPv6` flag is true exactly when the third part is `"v6"`,
and any other value there (including `"v4"`, unknown tags, or the empty
string) silently yields `IPv6 = false` rather than the unparseable result. -/
theorem parse_familyTag (s : Str) (h5 : 5 < (splitOnDot s).length)
    (h0 : (splitOnDot s).getD 0 [] = []) :
    ∃ r, parseAddressSetRef s = some r
      ∧ (r.IPv6 = true ↔ (splitOnDot s).getD 2 [] = 'v' :: '6' :: []) := by
  refine ⟨_, parse_general s h5 h0, ?_⟩
  simp [decide_eq_true_eq]

/-- Witness for C9: a general-form name with unknown family tag `"v5"` parses
successfully with `IPv6 = false`. -/
theorem parse_familyTag_witness :
    ∃ r, parseAddressSetRef ".T.v5.a.b.c".data = some r
      ∧ (r.IPv6 = true ↔ (splitOnDot ".T.v5.a.b.c".data).getD 2 [] = 'v' :: '6' :: []) :=
  parse_familyTag ".T.v5.a.b.c".data (by decide) (by decide)

/-- C10: every reference the decoder classifies as the general tagged form
(more than 5 parts, first part empty) has a non-empty `Args` sequence. -/
theorem parse_general_args_nonempty (s : Str) (r : AddressSetRef)
    (h : parseAddressSetRef s = some r) (h5 : 5 < (splitOnDot s).length)
    (h0 : (splitOnDot s).getD 0 [] = []) :
    r.Args ≠ [] := by
  rw [parse_general s h5 h0] at h
  simp only [Option.some.injEq] at h
  subst h
  intro hnil
  simp only [List.drop_eq_nil_iff] at hnil
  omega

/-- Witness for C10: the general-form name `".T.v6.a.b.c"` decodes with a
non-empty args list. -/
theorem parse_general_args_nonempty_witness :
    ∃ r, parseAddressSetRef ".T.v6.a.b.c".data = some r ∧ r.Args ≠ [] := by
  obtain ⟨r, hr⟩ : ∃ r, parseAddressSetRef ".T.v6.a.b.c".data = some r := ⟨_, rfl⟩
  exact ⟨r, hr, parse_general_args_nonempty ".T.v6.a.b.c".data r hr (by decide) (by decide)⟩

/-- Counterexample for C1: the round-trip claim excepts only the general
tagged form with empty owner name and empty args, but it also fails at
`("Pod", false, "ns", "nm", [])` — dot-free components, non-empty owner
name — whose encoding `".Pod.v4.ns.nm"` has exactly 5 parts and is
unparseable.  It likewise fails for the compact and bare forms when the
owner namespace is empty: `("NetworkPolicy", false, "", "x", [])` encodes to
`".x"` and `("Namespace", false, "", "", [])` encodes to `""`, both
unparseable. -/
theorem roundtrip_counterexample :
    (dotFree "Pod".data ∧ dotFree "ns".data ∧ dotFree "nm".data ∧ "nm".data ≠ ([] : Str))
    ∧ parseAddressSetRef
        (newAddressSetRef "Pod".data false "ns".data "nm".data []).DisplayName = none
    ∧ parseAddressSetRef
        (newAddressSetRef "NetworkPolicy".data false [] "x".data []).DisplayName = none
    ∧ parseAddressSetRef
        (newAddressSetRef "Namespace".data false [] [] []).DisplayName = none := by
  decide

/-- C1 (amended): for every tuple of dot-free components, decoding the display
name produced by the encoder recovers the tuple exactly, except that (a) a
tuple taking the general tagged form must have non-empty args (with empty
args its 5-part encoding is unparseable, whatever the owner name), and (b) a
tuple taking the bare-namespace or network-policy compact form must have a
non-empty owner namespace. -/
theorem roundtrip_of_encode (ot : Str) (v6 : Bool) (ns nm : Str) (args : List Str)
    (hot : dotFree ot) (hns : dotFree ns) (hnm : dotFree nm)
    (hargs : ∀ a ∈ args, dotFree a)
    (hbare : (ot = "Namespace".data ∧ v6 = false ∧ nm = [] ∧ args = []) → ns ≠ [])
    (hcompact : (ot = "NetworkPolicy".data ∧ v6 = false) → ns ≠ [])
    (hgeneral : ¬(ot = "Namespace".data ∧ v6 = false ∧ nm = [] ∧ args = []) →
      ¬(ot = "NetworkPolicy".data ∧ v6 = false) → args ≠ []) :
    ∃ r, parseAddressSetRef (newAddressSetRef ot v6 ns nm args).DisplayName = some r
      ∧ r.OwnerType = ot ∧ r.IPv6 = v6 ∧ r.OwnerNamespace = ns
      ∧ r.OwnerName = nm ∧ r.Args = args := by
  by_cases hA : ot = "Namespace".data ∧ v6 = false ∧ nm = [] ∧ args = []
  · -- bare-namespace legacy form
    obtain ⟨hA1, hA2, hA3, hA4⟩ := hA
    have hnsne : ns ≠ [] := hbare ⟨hA1, hA2, hA3, hA4⟩
    have hd : (newAddressSetRef ot v6 ns nm args).DisplayName = joinDot [ns] := by
      show joinDot (addressSetNameParts ot v6 ns nm args) = _
      unfold addressSetNameParts
      rw [if_pos ⟨hA1, hA2, hA3, hA4⟩]
    have hsplit : splitOnDot (joinDot [ns]) = [ns] :=
      splitOnDot_joinDot [ns] (by simp) (by intro p hp; simp at hp; subst hp; exact hns)
    have hp := parse_bare (joinDot [ns]) (by rw [hsplit]; rfl)
      (by rw [hsplit]; simpa using hnsne)
    rw [hd, hp]
    refine ⟨_, rfl, ?_, ?_, ?_, ?_, ?_⟩ <;> simp [hsplit, hA1, hA2, hA3, hA4]
  · by_cases hB : ot = "NetworkPolicy".data ∧ v6 = false
    · -- network-policy compact form
      have hnsne : ns ≠ [] := hcompact hB
      have hd : (newAddressSetRef ot v6 ns nm args).DisplayName
          = joinDot (ns :: nm :: args) := by
        show joinDot (addressSetNameParts ot v6 ns nm args) = _
        unfold addressSetNameParts
        rw [if_neg hA, if_pos hB]
      have hsplit : splitOnDot (joinDot (ns :: nm :: args)) = ns :: nm :: args := by
        refine splitOnDot_joinDot _ (by simp) ?_
        intro p hp
        simp only [List.mem_cons] at hp
        rcases hp with h | h | h
        · subst h; exact hns
        · subst h; exact hnm
        · exact hargs p h
      have hlen : 1 < (splitOnDot (joinDot (ns :: nm :: args))).length := by
        rw [hsplit]
        simp only [List.length_cons]
        omega
      have hp := parse_compact (joinDot (ns :: nm :: args)) hlen
        (by rw [hsplit]; simpa using hnsne)
      rw [hd, hp]
      refine ⟨_, rfl, ?_, ?_, ?_, ?_, ?_⟩ <;> simp [hsplit, hB.1, hB.2]
    · -- general tagged form
      have hargsne : args ≠ [] := hgeneral hA hB
      cases v6 with
      | false =>
        have hd : (newAddressSetRef ot false ns nm args).DisplayName
            = joinDot ([] :: ot :: ('v' :: '4' :: []) :: ns :: nm :: args) := by
          show joinDot (addressSetNameParts ot false ns nm args) = _
          unfold addressSetNameParts
          rw [if_neg hA, if_neg hB]
          rfl
        rw [hd]
        obtain ⟨r, hp, h1, h2, h3, h4, h5⟩ :=
          parse_joinDot_general ot ('v' :: '4' :: []) ns nm args hot (by decide)
            hns hnm hargs hargsne
        exact ⟨r, hp, h1, h2.trans (by decide), h3, h4, h5⟩
      | true =>
        have hd : (newAddressSetRef ot true ns nm args).DisplayName
            = joinDot ([] :: ot :: ('v' :: '6' :: []) :: ns :: nm :: args) := by
          show joinDot (addressSetNameParts ot true ns nm args) = _
          unfold addressSetNameParts
          rw [if_neg hA, if_neg hB]
          rfl
        rw [hd]
        obtain ⟨r, hp, h1, h2, h3, h4, h5⟩ :=
          parse_joinDot_general ot ('v' :: '6' :: []) ns nm args hot (by decide)
            hns hnm hargs hargsne
        exact ⟨r, hp, h1, h2.trans (by decide), h3, h4, h5⟩

/-- Witness for C1 (amended): the round trip at one concrete tuple of each of
the three forms. -/
theorem roundtrip_of_encode_witness :
    (∃ r, parseAddressSetRef
        (newAddressSetRef "Namespace".data false "testing".data [] []).DisplayName = some r
      ∧ r.OwnerType = "Namespace".data ∧ r.IPv6 = false
      ∧ r.OwnerNamespace = "testing".data ∧ r.OwnerName = [] ∧ r.Args = [])
    ∧ (∃ r, parseAddressSetRef
        (newAddressSetRef "NetworkPolicy".data false "testing".data "policy".data
          ["ingress".data, "1".data]).DisplayName = some r
      ∧ r.OwnerType = "NetworkPolicy".data ∧ r.IPv6 = false
      ∧ r.OwnerNamespace = "testing".data ∧ r.OwnerName = "policy".data
      ∧ r.Args = ["ingress".data, "1".data])
    ∧ (∃ r, parseAddressSetRef
        (newAddressSetRef "Pod".data true "ns".data [] ["a".data]).DisplayName = some r
      ∧ r.OwnerType = "Pod".data ∧ r.IPv6 = true ∧ r.OwnerNamespace = "ns".data
      ∧ r.OwnerName = [] ∧ r.Args = ["a".data]) :=
  ⟨roundtrip_of_encode _ _ _ _ _ (by decide) (by decide) (by decide) (by decide)
      (by decide) (by decide) (by decide),
   roundtrip_of_encode _ _ _ _ _ (by decide) (by decide) (by decide) (by decide)
      (by decide) (by decide) (by decide),
   roundtrip_of_encode _ _ _ _ _ (by decide) (by decide) (by decide) (by decide)
      (by decide) (by decide) (by decide)⟩
